import Mathlib

/-!
# Verification of the cyberdeck serial status-display firmware

Shallow embedding of the firmware's core logic:

* the `key=value;...` protocol parser (`splitKeyValue`, `toFloat`, `toInt`,
  `parseStatsLine`) from `src/unnamed/part_000`;
* the serial line assembler (`processSerialInput`, modelled as `feedByte` /
  `feedBytes` over an explicit state);
* the percentage bar renderer (`drawBar`), modelled as the list of drawing
  primitives it issues;
* the matrix-rain per-column animation (`initMatrixMode` / `matrixStep`,
  modelled per column as `initCol` / `matrixColStep`, with the firmware's
  `random(..)` calls supplied as oracle seeds reduced into the requested
  range);
* the BtnB display-mode transition from `loop` in
  `src/CoreSerial/m5core1_serial/src/main.cpp` (`pressB`).

Strings are modelled as `List Char`; C `float` values as `ℚ` with exact
decimal `strtod`-style parsing; C `int`/`long` as `ℤ` (all quantities
involved stay far from the 32-bit range).
-/

set_option maxRecDepth 8000

abbrev Str := List Char

/-- Convert a Lean string literal to the `List Char` representation used by
the model. -/
def str (s : String) : Str := s.toList

/-- C `isspace` on the ASCII range, as used by Arduino `String::trim`. -/
def isSpaceChar (c : Char) : Bool :=
  c = ' ' || c = '\t' || c = '\n' || c = '\x0b' || c = '\x0c' || c = '\r'

/-- Arduino `String::trim`: remove leading and trailing whitespace. -/
def trim (s : Str) : Str :=
  ((s.dropWhile isSpaceChar).reverse.dropWhile isSpaceChar).reverse

/-- `splitKeyValue` from the firmware: find the first `=`; fail when there is
none or it is at index 0 (`idx <= 0`); otherwise split there, trim both
parts, and fail when the trimmed key is empty. -/
def splitKeyValue (kv : Str) : Option (Str × Str) :=
  match kv.findIdx? (fun c => c = '=') with
  | none => none
  | some idx =>
    if idx = 0 then none
    else
      let key := trim (kv.take idx)
      let value := trim (kv.drop (idx + 1))
      if 0 < key.length then some (key, value) else none

def digitVal (c : Char) : ℕ := c.toNat - '0'.toNat

def digitsToNat (ds : Str) : ℕ := ds.foldl (fun a c => 10 * a + digitVal c) 0

/-- Strip an optional leading sign, returning the sign as `±1`. -/
def stripSign (s : Str) : ℤ × Str :=
  match s with
  | '-' :: r => (-1, r)
  | '+' :: r => (1, r)
  | _ => (1, s)

/-- Split off the integer-part digits and (after an optional `.`) the
fraction-part digits of a decimal mantissa; also return the remainder. -/
def mantissaDigits (s : Str) : Str × Str × Str :=
  let ip := s.takeWhile Char.isDigit
  let s1 := s.dropWhile Char.isDigit
  match s1 with
  | '.' :: r => (ip, r.takeWhile Char.isDigit, r.dropWhile Char.isDigit)
  | _ => (ip, [], s1)

/-- Arduino `String::toFloat` (a thin wrapper over C `strtod`): skip
whitespace, optional sign, decimal mantissa, optional exponent; if no digit
is found the result is `0`.  Modelled exactly over `ℚ`. -/
def toFloat (s : Str) : ℚ :=
  let s0 := s.dropWhile isSpaceChar
  let sgn := (stripSign s0).1
  let s1 := (stripSign s0).2
  let ip := (mantissaDigits s1).1
  let fp := (mantissaDigits s1).2.1
  let s2 := (mantissaDigits s1).2.2
  if ip = [] ∧ fp = [] then 0
  else
    let mant : ℚ := (sgn : ℚ) * ((digitsToNat ip : ℚ) + (digitsToNat fp : ℚ) / 10 ^ fp.length)
    match s2 with
    | c :: r =>
      if c = 'e' ∨ c = 'E' then
        let eds := ((stripSign r).2).takeWhile Char.isDigit
        if eds = [] then mant
        else mant * 10 ^ ((stripSign r).1 * (digitsToNat eds : ℤ))
      else mant
    | [] => mant

/-- `true` iff `toFloat` finds at least one mantissa digit (the "leading
numeric prefix" of the spec); when `false`, `toFloat` falls back to `0`. -/
def hasLeadingDigits (s : Str) : Bool :=
  let s1 := (stripSign (s.dropWhile isSpaceChar)).2
  let ip := (mantissaDigits s1).1
  let fp := (mantissaDigits s1).2.1
  decide (ip ≠ [] ∨ fp ≠ [])

/-- `true` iff `toInt` finds at least one digit after the optional
whitespace and sign; when `false`, `toInt` falls back to `0`. -/
def hasLeadingIntDigits (s : Str) : Bool :=
  decide ((((stripSign (s.dropWhile isSpaceChar)).2).takeWhile Char.isDigit) ≠ [])

/-- Arduino `String::toInt` (C `atol`): skip whitespace, optional sign,
digit prefix; `0` when no digit is found. -/
def toInt (s : Str) : ℤ :=
  let s0 := s.dropWhile isSpaceChar
  let sgn := (stripSign s0).1
  let s1 := (stripSign s0).2
  sgn * (digitsToNat (s1.takeWhile Char.isDigit) : ℤ)

/-- The `Stats` record of `src/unnamed/part_000`, default-initialized to
empty strings and zeros. -/
@[ext] structure Stats where
  time : Str := []
  hostname : Str := []
  cpu : ℚ := 0
  ramUsedMb : ℤ := 0
  ramTotalMb : ℤ := 0
  ramPercent : ℚ := 0
  load1 : ℚ := 0
  load5 : ℚ := 0
  load15 : ℚ := 0
  localIp : Str := []
  publicIp : Str := []
  cpuTempC : ℚ := 0
  netUpMbps : ℚ := 0
  netDownMbps : ℚ := 0
  deriving DecidableEq, Repr

def defaultStats : Stats := {}

/-- The key-dispatch chain inside `parseStatsLine`: assign the recognized
field named by `key`, or leave the record unchanged for unknown keys. -/
def applyKeyValue (r : Stats) (key value : Str) : Stats :=
  if key = str "time" then { r with time := value }
  else if key = str "hostname" then { r with hostname := value }
  else if key = str "cpu" then { r with cpu := toFloat value }
  else if key = str "ram_used_mb" then { r with ramUsedMb := toInt value }
  else if key = str "ram_total_mb" then { r with ramTotalMb := toInt value }
  else if key = str "ram_percent" then { r with ramPercent := toFloat value }
  else if key = str "load_1" then { r with load1 := toFloat value }
  else if key = str "load_5" then { r with load5 := toFloat value }
  else if key = str "load_15" then { r with load15 := toFloat value }
  else if key = str "local_ip" then { r with localIp := value }
  else if key = str "public_ip" then { r with publicIp := value }
  else if key = str "cpu_temp_c" then { r with cpuTempC := toFloat value }
  else if key = str "net_up_mbps" then { r with netUpMbps := toFloat value }
  else if key = str "net_down_mbps" then { r with netDownMbps := toFloat value }
  else r

/-- One iteration of the token loop of `parseStatsLine`: trim the raw token,
skip it when empty or when `splitKeyValue` rejects it, otherwise dispatch on
the key. -/
def applyToken (r : Stats) (rawTok : Str) : Stats :=
  let token := trim rawTok
  if 0 < token.length then
    match splitKeyValue token with
    | some kv => applyKeyValue r kv.1 kv.2
    | none => r
  else r

/-- The `;`-splitting performed by the `while` loop of `parseStatsLine`
(`indexOf(';', start)` / `substring`): successive segments between `;`
separators; a trailing `;` does not produce a trailing empty token because
the loop exits once `start` reaches the end. -/
def lineTokensAux : Str → Str → List Str
  | [], acc => [acc.reverse]
  | c :: rest, acc =>
    if c = ';' then
      acc.reverse :: (if rest = [] then [] else lineTokensAux rest [])
    else lineTokensAux rest (c :: acc)

def lineTokens (line : Str) : List Str :=
  if line = [] then [] else lineTokensAux line []

def parseTokens (r : Stats) (toks : List Str) : Stats := toks.foldl applyToken r

/-- `parseStatsLine` from `src/unnamed/part_000`: iterate over the `;`
separated tokens of `line`, starting from the previous record `r` and
updating only the fields whose keys appear. -/
def parseStatsLine (r : Stats) (line : Str) : Stats := parseTokens r (lineTokens line)

/-- The key that a raw token of a line would assign, if any. -/
def tokenKey (rawTok : Str) : Option Str :=
  let token := trim rawTok
  if 0 < token.length then (splitKeyValue token).map Prod.fst else none

/-- A recognized key "appears in a valid token" of a line. -/
def MentionsKey (line : Str) (k : Str) : Prop :=
  ∃ t ∈ lineTokens line, tokenKey t = some k

instance (line : Str) (k : Str) : Decidable (MentionsKey line k) := by
  unfold MentionsKey; infer_instance

/-- The conditions under which the firmware silently skips a token: no `=`,
`=` at position 0, or a key that trims to empty. -/
def malformedToken (rawTok : Str) : Bool :=
  let t := trim rawTok
  match t.findIdx? (fun c => c = '=') with
  | none => true
  | some 0 => true
  | some idx => decide (trim (t.take idx) = [])

/-! ## Line assembler (`processSerialInput`) -/

/-- State of the serial line assembler: the accumulating `g_lineBuffer`
together with the journal of lines handed to `parseStatsLine`. -/
structure AsmState where
  buffer : Str
  emitted : List Str
  deriving DecidableEq, Repr

def asmInit : AsmState := ⟨[], []⟩

/-- One iteration of the `while (Serial.available())` loop of
`processSerialInput`: ignore `\r`; on `\n` trim the buffer, emit it when
non-empty, and clear the buffer; otherwise append when the buffer holds
fewer than 512 bytes, else silently reset the buffer. -/
def feedByte (st : AsmState) (c : Char) : AsmState :=
  if c = '\r' then st
  else if c = '\n' then
    let line := trim st.buffer
    { buffer := [],
      emitted := if 0 < line.length then st.emitted ++ [line] else st.emitted }
  else if st.buffer.length < 512 then
    { st with buffer := st.buffer ++ [c] }
  else
    { st with buffer := [] }

def feedBytes (st : AsmState) (cs : Str) : AsmState := cs.foldl feedByte st

/-! ## Bar renderer (`drawBar`) -/

/-- The drawing primitives `drawBar` issues on `M5.Lcd`. -/
inductive DrawOp
  | drawRect (x y w h : ℤ) (color : ℕ)
  | fillRect (x y w h : ℤ) (color : ℕ)
  deriving DecidableEq, Repr

def TFT_BLACK : ℕ := 0

/-- C cast `(int)` applied to a real value: truncation toward zero. -/
def ratTrunc (q : ℚ) : ℤ := if 0 ≤ q then ⌊q⌋ else -⌊-q⌋

/-- `drawBar` from `src/unnamed/part_000`, modelled as the sequence of
drawing operations it performs: clamp `percent` into `[0,100]`, draw the
border, clear the interior, and fill `filled` columns when positive. -/
def drawBar (x y w h : ℤ) (percent : ℚ) (baseColor : ℕ) : List DrawOp :=
  let p1 := if percent < 0 then 0 else percent
  let p2 := if p1 > 100 then 100 else p1
  let innerW := w - 2
  let innerH := h - 2
  let filled := ratTrunc (p2 / 100 * (innerW : ℚ))
  [DrawOp.drawRect x y w h baseColor,
   DrawOp.fillRect (x + 1) (y + 1) innerW innerH TFT_BLACK] ++
  (if 0 < filled then [DrawOp.fillRect (x + 1) (y + 1) filled innerH baseColor] else [])

/-! ## Matrix rain (`initMatrixMode` / `matrixStep`)

The firmware's `random(n)` (uniform in `[0, n)`) and `random(lo, hi)`
(uniform in `[lo, hi)`) are modelled by oracle seeds reduced into the
requested interval, one fresh seed per call. -/

def MATRIX_TEXT_HEIGHT : ℤ := 8
def MATRIX_SCREEN_H : ℤ := 240
def MATRIX_TRAIL_MIN_ROWS : ℤ := 4
def MATRIX_TRAIL_MAX_ROWS : ℤ := 12

/-- `int rows = MATRIX_SCREEN_H / MATRIX_TEXT_HEIGHT` (= 30). -/
def matrixRows : ℤ := MATRIX_SCREEN_H / MATRIX_TEXT_HEIGHT

/-- Arduino `random(n)`: a value in `[0, n)`, here seed-driven. -/
def randBelow (seed : ℕ) (n : ℤ) : ℤ := (seed : ℤ) % n

/-- Arduino `random(lo, hi)`: a value in `[lo, hi)`, here seed-driven. -/
def randIn (seed : ℕ) (lo hi : ℤ) : ℤ := lo + randBelow seed (hi - lo)

/-- Per-column state: `g_matrixDropY[i]` and `g_matrixTrailLen[i]`. -/
structure MatrixCol where
  dropY : ℤ
  trailLen : ℤ
  deriving DecidableEq, Repr

/-- Seeding of one column in `initMatrixMode`: head at a random negative
row, trail length in `[MATRIX_TRAIL_MIN_ROWS, MATRIX_TRAIL_MAX_ROWS]`. -/
def initCol (s1 s2 : ℕ) : MatrixCol :=
  { dropY := -(randBelow s1 matrixRows),
    trailLen := randIn s2 MATRIX_TRAIL_MIN_ROWS (MATRIX_TRAIL_MAX_ROWS + 1) }

/-- `initMatrixMode` over all columns, one seed pair per column. -/
def initMatrix (seeds : List (ℕ × ℕ)) : List MatrixCol :=
  seeds.map (fun s => initCol s.1 s.2)

/-- The state change `matrixStep` applies to one column: advance the head
by one row; once the head has passed `rows + trailLen`, respawn with a new
random negative head and a new random trail length. -/
def matrixColStep (c : MatrixCol) (s1 s2 : ℕ) : MatrixCol :=
  let d := c.dropY + 1
  if d ≥ matrixRows + c.trailLen then
    { dropY := -(randBelow s1 matrixRows),
      trailLen := randIn s2 MATRIX_TRAIL_MIN_ROWS (MATRIX_TRAIL_MAX_ROWS + 1) }
  else
    { dropY := d, trailLen := c.trailLen }

/-! ## Display-mode controller (BtnB edge in `loop`) -/

inductive DisplayMode
  | dashboard
  | matrix
  | art
  deriving DecidableEq, Repr

structure UiState where
  mode : DisplayMode
  artIndex : ℤ
  deriving DecidableEq, Repr

def numAsciiArts : ℤ := 2

/-- The BtnB edge handler in `loop` of
`src/CoreSerial/m5core1_serial/src/main.cpp`: entering AsciiArt resets the
cursor to 0; a repeat press advances it modulo `g_numAsciiArts` (C `%` is
truncated division remainder, `Int.tmod`). -/
def pressB (s : UiState) : UiState :=
  if s.mode ≠ DisplayMode.art then
    { mode := DisplayMode.art, artIndex := 0 }
  else if 0 < numAsciiArts then
    { mode := s.mode, artIndex := Int.tmod (s.artIndex + 1) numAsciiArts }
  else
    s

/-! ## Sparse-update view of `parseStatsLine`

`parseStatsLine` only ever assigns token-determined values to fields; this
is captured by factoring a parse into a sparse set of field assignments
(`StatsUpd`) applied to the starting record, which yields the merge/frame
and idempotence properties. -/

structure StatsUpd where
  time : Option Str := none
  hostname : Option Str := none
  cpu : Option ℚ := none
  ramUsedMb : Option ℤ := none
  ramTotalMb : Option ℤ := none
  ramPercent : Option ℚ := none
  load1 : Option ℚ := none
  load5 : Option ℚ := none
  load15 : Option ℚ := none
  localIp : Option Str := none
  publicIp : Option Str := none
  cpuTempC : Option ℚ := none
  netUpMbps : Option ℚ := none
  netDownMbps : Option ℚ := none
  deriving DecidableEq, Repr

def emptyUpd : StatsUpd := {}

/-- Apply a sparse assignment set to a record: assigned fields take the new
value, absent fields keep their previous value. -/
def applyUpd (r : Stats) (u : StatsUpd) : Stats :=
  { time := u.time.getD r.time,
    hostname := u.hostname.getD r.hostname,
    cpu := u.cpu.getD r.cpu,
    ramUsedMb := u.ramUsedMb.getD r.ramUsedMb,
    ramTotalMb := u.ramTotalMb.getD r.ramTotalMb,
    ramPercent := u.ramPercent.getD r.ramPercent,
    load1 := u.load1.getD r.load1,
    load5 := u.load5.getD r.load5,
    load15 := u.load15.getD r.load15,
    localIp := u.localIp.getD r.localIp,
    publicIp := u.publicIp.getD r.publicIp,
    cpuTempC := u.cpuTempC.getD r.cpuTempC,
    netUpMbps := u.netUpMbps.getD r.netUpMbps,
    netDownMbps := u.netDownMbps.getD r.netDownMbps }

/-- The assignment a single recognized key contributes (mirror of
`applyKeyValue` at the level of sparse updates). -/
def collectKeyValue (u : StatsUpd) (key value : Str) : StatsUpd :=
  if key = str "time" then { u with time := some value }
  else if key = str "hostname" then { u with hostname := some value }
  else if key = str "cpu" then { u with cpu := some (toFloat value) }
  else if key = str "ram_used_mb" then { u with ramUsedMb := some (toInt value) }
  else if key = str "ram_total_mb" then { u with ramTotalMb := some (toInt value) }
  else if key = str "ram_percent" then { u with ramPercent := some (toFloat value) }
  else if key = str "load_1" then { u with load1 := some (toFloat value) }
  else if key = str "load_5" then { u with load5 := some (toFloat value) }
  else if key = str "load_15" then { u with load15 := some (toFloat value) }
  else if key = str "local_ip" then { u with localIp := some value }
  else if key = str "public_ip" then { u with publicIp := some value }
  else if key = str "cpu_temp_c" then { u with cpuTempC := some (toFloat value) }
  else if key = str "net_up_mbps" then { u with netUpMbps := some (toFloat value) }
  else if key = str "net_down_mbps" then { u with netDownMbps := some (toFloat value) }
  else u

/-- The assignment a single raw token contributes (mirror of `applyToken`). -/
def collectTok (u : StatsUpd) (rawTok : Str) : StatsUpd :=
  let token := trim rawTok
  if 0 < token.length then
    match splitKeyValue token with
    | some kv => collectKeyValue u kv.1 kv.2
    | none => u
  else u

def collectTokens (toks : List Str) : StatsUpd := toks.foldl collectTok emptyUpd

/-- A byte that the assembler neither ignores nor treats as a terminator. -/
def PlainChar (c : Char) : Prop := c ≠ '\n' ∧ c ≠ '\r'

instance (c : Char) : Decidable (PlainChar c) := by
  unfold PlainChar; infer_instance

/-- A sample fully-populated record used to witness the frame properties. -/
def sampleStats : Stats :=
  { time := str "t", hostname := str "h", cpu := 1, ramUsedMb := 2, ramTotalMb := 3,
    ramPercent := 4, load1 := 5, load5 := 6, load15 := 7, localIp := str "li",
    publicIp := str "pi", cpuTempC := 8, netUpMbps := 9, netDownMbps := 10 }

/-! ## Lemmas about `trim` -/

theorem dropWhile_head_false {p : Char → Bool} {l : Str} {a : Char}
    (h : (l.dropWhile p).head? = some a) : p a = false := by
  induction l with
  | nil => simp [List.dropWhile] at h
  | cons c cs ih =>
    rw [List.dropWhile_cons] at h
    by_cases hc : p c
    · simp [hc] at h; exact ih h
    · simp [hc] at h; subst h; simpa using hc

theorem dropWhile_eq_self_of_head {p : Char → Bool} {l : Str}
    (h : ∀ a, l.head? = some a → p a = false) : l.dropWhile p = l := by
  cases l with
  | nil => rfl
  | cons c cs =>
    rw [List.dropWhile_cons]
    simp [h c rfl]

theorem getLast_dropWhile {p : Char → Bool} {l : Str}
    (h : l.dropWhile p ≠ []) : (l.dropWhile p).getLast? = l.getLast? := by
  induction l with
  | nil => simp [List.dropWhile] at h
  | cons c cs ih =>
    rw [List.dropWhile_cons]
    rw [List.dropWhile_cons] at h
    by_cases hc : p c
    · simp only [hc, if_true] at h ⊢
      rw [ih h]
      cases cs with
      | nil => simp [List.dropWhile] at h
      | cons b bs => rw [List.getLast?_cons_cons]
    · simp [hc]

theorem trim_head_false {s : Str} {a : Char}
    (h : (trim s).head? = some a) : isSpaceChar a = false := by
  unfold trim at h
  rw [List.head?_reverse] at h
  have hne : (((s.dropWhile isSpaceChar).reverse).dropWhile isSpaceChar) ≠ [] := by
    intro hnil; rw [hnil] at h; simp at h
  rw [getLast_dropWhile hne] at h
  rw [List.getLast?_reverse] at h
  exact dropWhile_head_false h

theorem trim_idem (s : Str) : trim (trim s) = trim s := by
  have h1 : (trim s).dropWhile isSpaceChar = trim s :=
    dropWhile_eq_self_of_head (fun a ha => trim_head_false ha)
  have h2 : ((trim s).reverse).dropWhile isSpaceChar = (trim s).reverse := by
    apply dropWhile_eq_self_of_head
    intro a ha
    rw [List.head?_reverse] at ha
    unfold trim at ha
    rw [List.getLast?_reverse] at ha
    exact dropWhile_head_false ha
  show ((trim s |>.dropWhile isSpaceChar).reverse.dropWhile isSpaceChar).reverse = trim s
  rw [h1, h2, List.reverse_reverse]

/-! ## The sparse-update factorization of `parseStatsLine` -/

theorem optGetDIdem {α : Type} (o : Option α) (x : α) : o.getD (o.getD x) = o.getD x := by
  cases o <;> rfl

theorem applyUpd_emptyUpd (r : Stats) : applyUpd r emptyUpd = r := rfl

theorem applyKeyValue_applyUpd (r : Stats) (u : StatsUpd) (key value : Str) :
    applyKeyValue (applyUpd r u) key value = applyUpd r (collectKeyValue u key value) := by
  unfold applyKeyValue collectKeyValue
  by_cases h1 : key = str "time"
  · simp only [if_pos h1]; rfl
  simp only [if_neg h1]
  by_cases h2 : key = str "hostname"
  · simp only [if_pos h2]; rfl
  simp only [if_neg h2]
  by_cases h3 : key = str "cpu"
  · simp only [if_pos h3]; rfl
  simp only [if_neg h3]
  by_cases h4 : key = str "ram_used_mb"
  · simp only [if_pos h4]; rfl
  simp only [if_neg h4]
  by_cases h5 : key = str "ram_total_mb"
  · simp only [if_pos h5]; rfl
  simp only [if_neg h5]
  by_cases h6 : key = str "ram_percent"
  · simp only [if_pos h6]; rfl
  simp only [if_neg h6]
  by_cases h7 : key = str "load_1"
  · simp only [if_pos h7]; rfl
  simp only [if_neg h7]
  by_cases h8 : key = str "load_5"
  · simp only [if_pos h8]; rfl
  simp only [if_neg h8]
  by_cases h9 : key = str "load_15"
  · simp only [if_pos h9]; rfl
  simp only [if_neg h9]
  by_cases h10 : key = str "local_ip"
  · simp only [if_pos h10]; rfl
  simp only [if_neg h10]
  by_cases h11 : key = str "public_ip"
  · simp only [if_pos h11]; rfl
  simp only [if_neg h11]
  by_cases h12 : key = str "cpu_temp_c"
  · simp only [if_pos h12]; rfl
  simp only [if_neg h12]
  by_cases h13 : key = str "net_up_mbps"
  · simp only [if_pos h13]; rfl
  simp only [if_neg h13]
  by_cases h14 : key = str "net_down_mbps"
  · simp only [if_pos h14]; rfl
  simp only [if_neg h14]

theorem applyToken_applyUpd (r : Stats) (u : StatsUpd) (rawTok : Str) :
    applyToken (applyUpd r u) rawTok = applyUpd r (collectTok u rawTok) := by
  unfold applyToken collectTok
  by_cases h : 0 < (trim rawTok).length
  · simp only [h, if_true]
    rcases hs : splitKeyValue (trim rawTok) with _ | kv
    · rfl
    · exact applyKeyValue_applyUpd r u kv.1 kv.2
  · simp only [h, if_false]

theorem parseTokens_applyUpd (toks : List Str) (r : Stats) (u : StatsUpd) :
    parseTokens (applyUpd r u) toks = applyUpd r (toks.foldl collectTok u) := by
  induction toks generalizing u with
  | nil => rfl
  | cons t ts ih =>
    show parseTokens (applyToken (applyUpd r u) t) ts = _
    rw [applyToken_applyUpd, ih]
    rfl

theorem parseTokens_eq_applyUpd (toks : List Str) (r : Stats) :
    parseTokens r toks = applyUpd r (collectTokens toks) := by
  have := parseTokens_applyUpd toks r emptyUpd
  rwa [applyUpd_emptyUpd] at this

theorem applyUpd_idem (r : Stats) (u : StatsUpd) :
    applyUpd (applyUpd r u) u = applyUpd r u := by
  ext <;> simp [applyUpd, optGetDIdem]

/-! ## Frame lemmas: `applyKeyValue` only touches the field its key names -/

theorem applyKeyValue_frame_time (r : Stats) (k v : Str) (hk : k ≠ str "time") :
    (applyKeyValue r k v).time = r.time := by
  unfold applyKeyValue
  by_cases h1 : k = str "time"
  · exact absurd h1 hk
  simp only [if_neg h1]
  by_cases h2 : k = str "hostname"
  · simp only [if_pos h2]
  simp only [if_neg h2]
  by_cases h3 : k = str "cpu"
  · simp only [if_pos h3]
  simp only [if_neg h3]
  by_cases h4 : k = str "ram_used_mb"
  · simp only [if_pos h4]
  simp only [if_neg h4]
  by_cases h5 : k = str "ram_total_mb"
  · simp only [if_pos h5]
  simp only [if_neg h5]
  by_cases h6 : k = str "ram_percent"
  · simp only [if_pos h6]
  simp only [if_neg h6]
  by_cases h7 : k = str "load_1"
  · simp only [if_pos h7]
  simp only [if_neg h7]
  by_cases h8 : k = str "load_5"
  · simp only [if_pos h8]
  simp only [if_neg h8]
  by_cases h9 : k = str "load_15"
  · simp only [if_pos h9]
  simp only [if_neg h9]
  by_cases h10 : k = str "local_ip"
  · simp only [if_pos h10]
  simp only [if_neg h10]
  by_cases h11 : k = str "public_ip"
  · simp only [if_pos h11]
  simp only [if_neg h11]
  by_cases h12 : k = str "cpu_temp_c"
  · simp only [if_pos h12]
  simp only [if_neg h12]
  by_cases h13 : k = str "net_up_mbps"
  · simp only [if_pos h13]
  simp only [if_neg h13]
  by_cases h14 : k = str "net_down_mbps"
  · simp only [if_pos h14]
  simp only [if_neg h14]
theorem applyKeyValue_frame_hostname (r : Stats) (k v : Str) (hk : k ≠ str "hostname") :
    (applyKeyValue r k v).hostname = r.hostname := by
  unfold applyKeyValue
  by_cases h1 : k = str "time"
  · simp only [if_pos h1]
  simp only [if_neg h1]
  by_cases h2 : k = str "hostname"
  · exact absurd h2 hk
  simp only [if_neg h2]
  by_cases h3 : k = str "cpu"
  · simp only [if_pos h3]
  simp only [if_neg h3]
  by_cases h4 : k = str "ram_used_mb"
  · simp only [if_pos h4]
  simp only [if_neg h4]
  by_cases h5 : k = str "ram_total_mb"
  · simp only [if_pos h5]
  simp only [if_neg h5]
  by_cases h6 : k = str "ram_percent"
  · simp only [if_pos h6]
  simp only [if_neg h6]
  by_cases h7 : k = str "load_1"
  · simp only [if_pos h7]
  simp only [if_neg h7]
  by_cases h8 : k = str "load_5"
  · simp only [if_pos h8]
  simp only [if_neg h8]
  by_cases h9 : k = str "load_15"
  · simp only [if_pos h9]
  simp only [if_neg h9]
  by_cases h10 : k = str "local_ip"
  · simp only [if_pos h10]
  simp only [if_neg h10]
  by_cases h11 : k = str "public_ip"
  · simp only [if_pos h11]
  simp only [if_neg h11]
  by_cases h12 : k = str "cpu_temp_c"
  · simp only [if_pos h12]
  simp only [if_neg h12]
  by_cases h13 : k = str "net_up_mbps"
  · simp only [if_pos h13]
  simp only [if_neg h13]
  by_cases h14 : k = str "net_down_mbps"
  · simp only [if_pos h14]
  simp only [if_neg h14]
theorem applyKeyValue_frame_cpu (r : Stats) (k v : Str) (hk : k ≠ str "cpu") :
    (applyKeyValue r k v).cpu = r.cpu := by
  unfold applyKeyValue
  by_cases h1 : k = str "time"
  · simp only [if_pos h1]
  simp only [if_neg h1]
  by_cases h2 : k = str "hostname"
  · simp only [if_pos h2]
  simp only [if_neg h2]
  by_cases h3 : k = str "cpu"
  · exact absurd h3 hk
  simp only [if_neg h3]
  by_cases h4 : k = str "ram_used_mb"
  · simp only [if_pos h4]
  simp only [if_neg h4]
  by_cases h5 : k = str "ram_total_mb"
  · simp only [if_pos h5]
  simp only [if_neg h5]
  by_cases h6 : k = str "ram_percent"
  · simp only [if_pos h6]
  simp only [if_neg h6]
  by_cases h7 : k = str "load_1"
  · simp only [if_pos h7]
  simp only [if_neg h7]
  by_cases h8 : k = str "load_5"
  · simp only [if_pos h8]
  simp only [if_neg h8]
  by_cases h9 : k = str "load_15"
  · simp only [if_pos h9]
  simp only [if_neg h9]
  by_cases h10 : k = str "local_ip"
  · simp only [if_pos h10]
  simp only [if_neg h10]
  by_cases h11 : k = str "public_ip"
  · simp only [if_pos h11]
  simp only [if_neg h11]
  by_cases h12 : k = str "cpu_temp_c"
  · simp only [if_pos h12]
  simp only [if_neg h12]
  by_cases h13 : k = str "net_up_mbps"
  · simp only [if_pos h13]
  simp only [if_neg h13]
  by_cases h14 : k = str "net_down_mbps"
  · simp only [if_pos h14]
  simp only [if_neg h14]
theorem applyKeyValue_frame_ramUsedMb (r : Stats) (k v : Str) (hk : k ≠ str "ram_used_mb") :
    (applyKeyValue r k v).ramUsedMb = r.ramUsedMb := by
  unfold applyKeyValue
  by_cases h1 : k = str "time"
  · simp only [if_pos h1]
  simp only [if_neg h1]
  by_cases h2 : k = str "hostname"
  · simp only [if_pos h2]
  simp only [if_neg h2]
  by_cases h3 : k = str "cpu"
  · simp only [if_pos h3]
  simp only [if_neg h3]
  by_cases h4 : k = str "ram_used_mb"
  · exact absurd h4 hk
  simp only [if_neg h4]
  by_cases h5 : k = str "ram_total_mb"
  · simp only [if_pos h5]
  simp only [if_neg h5]
  by_cases h6 : k = str "ram_percent"
  · simp only [if_pos h6]
  simp only [if_neg h6]
  by_cases h7 : k = str "load_1"
  · simp only [if_pos h7]
  simp only [if_neg h7]
  by_cases h8 : k = str "load_5"
  · simp only [if_pos h8]
  simp only [if_neg h8]
  by_cases h9 : k = str "load_15"
  · simp only [if_pos h9]
  simp only [if_neg h9]
  by_cases h10 : k = str "local_ip"
  · simp only [if_pos h10]
  simp only [if_neg h10]
  by_cases h11 : k = str "public_ip"
  · simp only [if_pos h11]
  simp only [if_neg h11]
  by_cases h12 : k = str "cpu_temp_c"
  · simp only [if_pos h12]
  simp only [if_neg h12]
  by_cases h13 : k = str "net_up_mbps"
  · simp only [if_pos h13]
  simp only [if_neg h13]
  by_cases h14 : k = str "net_down_mbps"
  · simp only [if_pos h14]
  simp only [if_neg h14]
theorem applyKeyValue_frame_ramTotalMb (r : Stats) (k v : Str) (hk : k ≠ str "ram_total_mb") :
    (applyKeyValue r k v).ramTotalMb = r.ramTotalMb := by
  unfold applyKeyValue
  by_cases h1 : k = str "time"
  · simp only [if_pos h1]
  simp only [if_neg h1]
  by_cases h2 : k = str "hostname"
  · simp only [if_pos h2]
  simp only [if_neg h2]
  by_cases h3 : k = str "cpu"
  · simp only [if_pos h3]
  simp only [if_neg h3]
  by_cases h4 : k = str "ram_used_mb"
  · simp only [if_pos h4]
  simp only [if_neg h4]
  by_cases h5 : k = str "ram_total_mb"
  · exact absurd h5 hk
  simp only [if_neg h5]
  by_cases h6 : k = str "ram_percent"
  · simp only [if_pos h6]
  simp only [if_neg h6]
  by_cases h7 : k = str "load_1"
  · simp only [if_pos h7]
  simp only [if_neg h7]
  by_cases h8 : k = str "load_5"
  · simp only [if_pos h8]
  simp only [if_neg h8]
  by_cases h9 : k = str "load_15"
  · simp only [if_pos h9]
  simp only [if_neg h9]
  by_cases h10 : k = str "local_ip"
  · simp only [if_pos h10]
  simp only [if_neg h10]
  by_cases h11 : k = str "public_ip"
  · simp only [if_pos h11]
  simp only [if_neg h11]
  by_cases h12 : k = str "cpu_temp_c"
  · simp only [if_pos h12]
  simp only [if_neg h12]
  by_cases h13 : k = str "net_up_mbps"
  · simp only [if_pos h13]
  simp only [if_neg h13]
  by_cases h14 : k = str "net_down_mbps"
  · simp only [if_pos h14]
  simp only [if_neg h14]
theorem applyKeyValue_frame_ramPercent (r : Stats) (k v : Str) (hk : k ≠ str "ram_percent") :
    (applyKeyValue r k v).ramPercent = r.ramPercent := by
  unfold applyKeyValue
  by_cases h1 : k = str "time"
  · simp only [if_pos h1]
  simp only [if_neg h1]
  by_cases h2 : k = str "hostname"
  · simp only [if_pos h2]
  simp only [if_neg h2]
  by_cases h3 : k = str "cpu"
  · simp only [if_pos h3]
  simp only [if_neg h3]
  by_cases h4 : k = str "ram_used_mb"
  · simp only [if_pos h4]
  simp only [if_neg h4]
  by_cases h5 : k = str "ram_total_mb"
  · simp only [if_pos h5]
  simp only [if_neg h5]
  by_cases h6 : k = str "ram_percent"
  · exact absurd h6 hk
  simp only [if_neg h6]
  by_cases h7 : k = str "load_1"
  · simp only [if_pos h7]
  simp only [if_neg h7]
  by_cases h8 : k = str "load_5"
  · simp only [if_pos h8]
  simp only [if_neg h8]
  by_cases h9 : k = str "load_15"
  · simp only [if_pos h9]
  simp only [if_neg h9]
  by_cases h10 : k = str "local_ip"
  · simp only [if_pos h10]
  simp only [if_neg h10]
  by_cases h11 : k = str "public_ip"
  · simp only [if_pos h11]
  simp only [if_neg h11]
  by_cases h12 : k = str "cpu_temp_c"
  · simp only [if_pos h12]
  simp only [if_neg h12]
  by_cases h13 : k = str "net_up_mbps"
  · simp only [if_pos h13]
  simp only [if_neg h13]
  by_cases h14 : k = str "net_down_mbps"
  · simp only [if_pos h14]
  simp only [if_neg h14]
theorem applyKeyValue_frame_load1 (r : Stats) (k v : Str) (hk : k ≠ str "load_1") :
    (applyKeyValue r k v).load1 = r.load1 := by
  unfold applyKeyValue
  by_cases h1 : k = str "time"
  · simp only [if_pos h1]
  simp only [if_neg h1]
  by_cases h2 : k = str "hostname"
  · simp only [if_pos h2]
  simp only [if_neg h2]
  by_cases h3 : k = str "cpu"
  · simp only [if_pos h3]
  simp only [if_neg h3]
  by_cases h4 : k = str "ram_used_mb"
  · simp only [if_pos h4]
  simp only [if_neg h4]
  by_cases h5 : k = str "ram_total_mb"
  · simp only [if_pos h5]
  simp only [if_neg h5]
  by_cases h6 : k = str "ram_percent"
  · simp only [if_pos h6]
  simp only [if_neg h6]
  by_cases h7 : k = str "load_1"
  · exact absurd h7 hk
  simp only [if_neg h7]
  by_cases h8 : k = str "load_5"
  · simp only [if_pos h8]
  simp only [if_neg h8]
  by_cases h9 : k = str "load_15"
  · simp only [if_pos h9]
  simp only [if_neg h9]
  by_cases h10 : k = str "local_ip"
  · simp only [if_pos h10]
  simp only [if_neg h10]
  by_cases h11 : k = str "public_ip"
  · simp only [if_pos h11]
  simp only [if_neg h11]
  by_cases h12 : k = str "cpu_temp_c"
  · simp only [if_pos h12]
  simp only [if_neg h12]
  by_cases h13 : k = str "net_up_mbps"
  · simp only [if_pos h13]
  simp only [if_neg h13]
  by_cases h14 : k = str "net_down_mbps"
  · simp only [if_pos h14]
  simp only [if_neg h14]
theorem applyKeyValue_frame_load5 (r : Stats) (k v : Str) (hk : k ≠ str "load_5") :
    (applyKeyValue r k v).load5 = r.load5 := by
  unfold applyKeyValue
  by_cases h1 : k = str "time"
  · simp only [if_pos h1]
  simp only [if_neg h1]
  by_cases h2 : k = str "hostname"
  · simp only [if_pos h2]
  simp only [if_neg h2]
  by_cases h3 : k = str "cpu"
  · simp only [if_pos h3]
  simp only [if_neg h3]
  by_cases h4 : k = str "ram_used_mb"
  · simp only [if_pos h4]
  simp only [if_neg h4]
  by_cases h5 : k = str "ram_total_mb"
  · simp only [if_pos h5]
  simp only [if_neg h5]
  by_cases h6 : k = str "ram_percent"
  · simp only [if_pos h6]
  simp only [if_neg h6]
  by_cases h7 : k = str "load_1"
  · simp only [if_pos h7]
  simp only [if_neg h7]
  by_cases h8 : k = str "load_5"
  · exact absurd h8 hk
  simp only [if_neg h8]
  by_cases h9 : k = str "load_15"
  · simp only [if_pos h9]
  simp only [if_neg h9]
  by_cases h10 : k = str "local_ip"
  · simp only [if_pos h10]
  simp only [if_neg h10]
  by_cases h11 : k = str "public_ip"
  · simp only [if_pos h11]
  simp only [if_neg h11]
  by_cases h12 : k = str "cpu_temp_c"
  · simp only [if_pos h12]
  simp only [if_neg h12]
  by_cases h13 : k = str "net_up_mbps"
  · simp only [if_pos h13]
  simp only [if_neg h13]
  by_cases h14 : k = str "net_down_mbps"
  · simp only [if_pos h14]
  simp only [if_neg h14]
theorem applyKeyValue_frame_load15 (r : Stats) (k v : Str) (hk : k ≠ str "load_15") :
    (applyKeyValue r k v).load15 = r.load15 := by
  unfold applyKeyValue
  by_cases h1 : k = str "time"
  · simp only [if_pos h1]
  simp only [if_neg h1]
  by_cases h2 : k = str "hostname"
  · simp only [if_pos h2]
  simp only [if_neg h2]
  by_cases h3 : k = str "cpu"
  · simp only [if_pos h3]
  simp only [if_neg h3]
  by_cases h4 : k = str "ram_used_mb"
  · simp only [if_pos h4]
  simp only [if_neg h4]
  by_cases h5 : k = str "ram_total_mb"
  · simp only [if_pos h5]
  simp only [if_neg h5]
  by_cases h6 : k = str "ram_percent"
  · simp only [if_pos h6]
  simp only [if_neg h6]
  by_cases h7 : k = str "load_1"
  · simp only [if_pos h7]
  simp only [if_neg h7]
  by_cases h8 : k = str "load_5"
  · simp only [if_pos h8]
  simp only [if_neg h8]
  by_cases h9 : k = str "load_15"
  · exact absurd h9 hk
  simp only [if_neg h9]
  by_cases h10 : k = str "local_ip"
  · simp only [if_pos h10]
  simp only [if_neg h10]
  by_cases h11 : k = str "public_ip"
  · simp only [if_pos h11]
  simp only [if_neg h11]
  by_cases h12 : k = str "cpu_temp_c"
  · simp only [if_pos h12]
  simp only [if_neg h12]
  by_cases h13 : k = str "net_up_mbps"
  · simp only [if_pos h13]
  simp only [if_neg h13]
  by_cases h14 : k = str "net_down_mbps"
  · simp only [if_pos h14]
  simp only [if_neg h14]
theorem applyKeyValue_frame_localIp (r : Stats) (k v : Str) (hk : k ≠ str "local_ip") :
    (applyKeyValue r k v).localIp = r.localIp := by
  unfold applyKeyValue
  by_cases h1 : k = str "time"
  · simp only [if_pos h1]
  simp only [if_neg h1]
  by_cases h2 : k = str "hostname"
  · simp only [if_pos h2]
  simp only [if_neg h2]
  by_cases h3 : k = str "cpu"
  · simp only [if_pos h3]
  simp only [if_neg h3]
  by_cases h4 : k = str "ram_used_mb"
  · simp only [if_pos h4]
  simp only [if_neg h4]
  by_cases h5 : k = str "ram_total_mb"
  · simp only [if_pos h5]
  simp only [if_neg h5]
  by_cases h6 : k = str "ram_percent"
  · simp only [if_pos h6]
  simp only [if_neg h6]
  by_cases h7 : k = str "load_1"
  · simp only [if_pos h7]
  simp only [if_neg h7]
  by_cases h8 : k = str "load_5"
  · simp only [if_pos h8]
  simp only [if_neg h8]
  by_cases h9 : k = str "load_15"
  · simp only [if_pos h9]
  simp only [if_neg h9]
  by_cases h10 : k = str "local_ip"
  · exact absurd h10 hk
  simp only [if_neg h10]
  by_cases h11 : k = str "public_ip"
  · simp only [if_pos h11]
  simp only [if_neg h11]
  by_cases h12 : k = str "cpu_temp_c"
  · simp only [if_pos h12]
  simp only [if_neg h12]
  by_cases h13 : k = str "net_up_mbps"
  · simp only [if_pos h13]
  simp only [if_neg h13]
  by_cases h14 : k = str "net_down_mbps"
  · simp only [if_pos h14]
  simp only [if_neg h14]
theorem applyKeyValue_frame_publicIp (r : Stats) (k v : Str) (hk : k ≠ str "public_ip") :
    (applyKeyValue r k v).publicIp = r.publicIp := by
  unfold applyKeyValue
  by_cases h1 : k = str "time"
  · simp only [if_pos h1]
  simp only [if_neg h1]
  by_cases h2 : k = str "hostname"
  · simp only [if_pos h2]
  simp only [if_neg h2]
  by_cases h3 : k = str "cpu"
  · simp only [if_pos h3]
  simp only [if_neg h3]
  by_cases h4 : k = str "ram_used_mb"
  · simp only [if_pos h4]
  simp only [if_neg h4]
  by_cases h5 : k = str "ram_total_mb"
  · simp only [if_pos h5]
  simp only [if_neg h5]
  by_cases h6 : k = str "ram_percent"
  · simp only [if_pos h6]
  simp only [if_neg h6]
  by_cases h7 : k = str "load_1"
  · simp only [if_pos h7]
  simp only [if_neg h7]
  by_cases h8 : k = str "load_5"
  · simp only [if_pos h8]
  simp only [if_neg h8]
  by_cases h9 : k = str "load_15"
  · simp only [if_pos h9]
  simp only [if_neg h9]
  by_cases h10 : k = str "local_ip"
  · simp only [if_pos h10]
  simp only [if_neg h10]
  by_cases h11 : k = str "public_ip"
  · exact absurd h11 hk
  simp only [if_neg h11]
  by_cases h12 : k = str "cpu_temp_c"
  · simp only [if_pos h12]
  simp only [if_neg h12]
  by_cases h13 : k = str "net_up_mbps"
  · simp only [if_pos h13]
  simp only [if_neg h13]
  by_cases h14 : k = str "net_down_mbps"
  · simp only [if_pos h14]
  simp only [if_neg h14]
theorem applyKeyValue_frame_cpuTempC (r : Stats) (k v : Str) (hk : k ≠ str "cpu_temp_c") :
    (applyKeyValue r k v).cpuTempC = r.cpuTempC := by
  unfold applyKeyValue
  by_cases h1 : k = str "time"
  · simp only [if_pos h1]
  simp only [if_neg h1]
  by_cases h2 : k = str "hostname"
  · simp only [if_pos h2]
  simp only [if_neg h2]
  by_cases h3 : k = str "cpu"
  · simp only [if_pos h3]
  simp only [if_neg h3]
  by_cases h4 : k = str "ram_used_mb"
  · simp only [if_pos h4]
  simp only [if_neg h4]
  by_cases h5 : k = str "ram_total_mb"
  · simp only [if_pos h5]
  simp only [if_neg h5]
  by_cases h6 : k = str "ram_percent"
  · simp only [if_pos h6]
  simp only [if_neg h6]
  by_cases h7 : k = str "load_1"
  · simp only [if_pos h7]
  simp only [if_neg h7]
  by_cases h8 : k = str "load_5"
  · simp only [if_pos h8]
  simp only [if_neg h8]
  by_cases h9 : k = str "load_15"
  · simp only [if_pos h9]
  simp only [if_neg h9]
  by_cases h10 : k = str "local_ip"
  · simp only [if_pos h10]
  simp only [if_neg h10]
  by_cases h11 : k = str "public_ip"
  · simp only [if_pos h11]
  simp only [if_neg h11]
  by_cases h12 : k = str "cpu_temp_c"
  · exact absurd h12 hk
  simp only [if_neg h12]
  by_cases h13 : k = str "net_up_mbps"
  · simp only [if_pos h13]
  simp only [if_neg h13]
  by_cases h14 : k = str "net_down_mbps"
  · simp only [if_pos h14]
  simp only [if_neg h14]
theorem applyKeyValue_frame_netUpMbps (r : Stats) (k v : Str) (hk : k ≠ str "net_up_mbps") :
    (applyKeyValue r k v).netUpMbps = r.netUpMbps := by
  unfold applyKeyValue
  by_cases h1 : k = str "time"
  · simp only [if_pos h1]
  simp only [if_neg h1]
  by_cases h2 : k = str "hostname"
  · simp only [if_pos h2]
  simp only [if_neg h2]
  by_cases h3 : k = str "cpu"
  · simp only [if_pos h3]
  simp only [if_neg h3]
  by_cases h4 : k = str "ram_used_mb"
  · simp only [if_pos h4]
  simp only [if_neg h4]
  by_cases h5 : k = str "ram_total_mb"
  · simp only [if_pos h5]
  simp only [if_neg h5]
  by_cases h6 : k = str "ram_percent"
  · simp only [if_pos h6]
  simp only [if_neg h6]
  by_cases h7 : k = str "load_1"
  · simp only [if_pos h7]
  simp only [if_neg h7]
  by_cases h8 : k = str "load_5"
  · simp only [if_pos h8]
  simp only [if_neg h8]
  by_cases h9 : k = str "load_15"
  · simp only [if_pos h9]
  simp only [if_neg h9]
  by_cases h10 : k = str "local_ip"
  · simp only [if_pos h10]
  simp only [if_neg h10]
  by_cases h11 : k = str "public_ip"
  · simp only [if_pos h11]
  simp only [if_neg h11]
  by_cases h12 : k = str "cpu_temp_c"
  · simp only [if_pos h12]
  simp only [if_neg h12]
  by_cases h13 : k = str "net_up_mbps"
  · exact absurd h13 hk
  simp only [if_neg h13]
  by_cases h14 : k = str "net_down_mbps"
  · simp only [if_pos h14]
  simp only [if_neg h14]
theorem applyKeyValue_frame_netDownMbps (r : Stats) (k v : Str) (hk : k ≠ str "net_down_mbps") :
    (applyKeyValue r k v).netDownMbps = r.netDownMbps := by
  unfold applyKeyValue
  by_cases h1 : k = str "time"
  · simp only [if_pos h1]
  simp only [if_neg h1]
  by_cases h2 : k = str "hostname"
  · simp only [if_pos h2]
  simp only [if_neg h2]
  by_cases h3 : k = str "cpu"
  · simp only [if_pos h3]
  simp only [if_neg h3]
  by_cases h4 : k = str "ram_used_mb"
  · simp only [if_pos h4]
  simp only [if_neg h4]
  by_cases h5 : k = str "ram_total_mb"
  · simp only [if_pos h5]
  simp only [if_neg h5]
  by_cases h6 : k = str "ram_percent"
  · simp only [if_pos h6]
  simp only [if_neg h6]
  by_cases h7 : k = str "load_1"
  · simp only [if_pos h7]
  simp only [if_neg h7]
  by_cases h8 : k = str "load_5"
  · simp only [if_pos h8]
  simp only [if_neg h8]
  by_cases h9 : k = str "load_15"
  · simp only [if_pos h9]
  simp only [if_neg h9]
  by_cases h10 : k = str "local_ip"
  · simp only [if_pos h10]
  simp only [if_neg h10]
  by_cases h11 : k = str "public_ip"
  · simp only [if_pos h11]
  simp only [if_neg h11]
  by_cases h12 : k = str "cpu_temp_c"
  · simp only [if_pos h12]
  simp only [if_neg h12]
  by_cases h13 : k = str "net_up_mbps"
  · simp only [if_pos h13]
  simp only [if_neg h13]
  by_cases h14 : k = str "net_down_mbps"
  · exact absurd h14 hk
  simp only [if_neg h14]

/-- A token whose key is not `kf` leaves every field governed by `kf`
unchanged (stated generically through a getter `g`). -/
theorem applyToken_preserve {α : Type} (g : Stats → α) (kf : Str)
    (hg : ∀ r k v, k ≠ kf → g (applyKeyValue r k v) = g r)
    (r : Stats) (t : Str) (ht : tokenKey t ≠ some kf) :
    g (applyToken r t) = g r := by
  unfold applyToken
  unfold tokenKey at ht
  by_cases h : 0 < (trim t).length
  · simp only [h, if_true] at ht ⊢
    rcases hs : splitKeyValue (trim t) with _ | kv
    · rfl
    · rw [hs] at ht
      refine hg r kv.1 kv.2 ?_
      intro hc
      apply ht
      simp [hc]
  · simp only [h, if_false]

theorem parseTokens_preserve {α : Type} (g : Stats → α) (kf : Str)
    (hg : ∀ r k v, k ≠ kf → g (applyKeyValue r k v) = g r)
    (toks : List Str) (r : Stats) (h : ∀ t ∈ toks, tokenKey t ≠ some kf) :
    g (parseTokens r toks) = g r := by
  induction toks generalizing r with
  | nil => rfl
  | cons t ts ih =>
    show g (parseTokens (applyToken r t) ts) = g r
    rw [ih (applyToken r t) (fun x hx => h x (List.mem_cons_of_mem t hx))]
    exact applyToken_preserve g kf hg r t (h t (List.mem_cons_self t ts))

theorem parseStatsLine_preserve {α : Type} (g : Stats → α) (kf : Str)
    (hg : ∀ r k v, k ≠ kf → g (applyKeyValue r k v) = g r)
    (r : Stats) (line : Str) (h : ¬ MentionsKey line kf) :
    g (parseStatsLine r line) = g r := by
  apply parseTokens_preserve g kf hg
  intro t ht hk
  exact h ⟨t, ht, hk⟩


/-! ## Lemmas about the line assembler -/

theorem feedBytes_append (st : AsmState) (cs1 cs2 : Str) :
    feedBytes st (cs1 ++ cs2) = feedBytes (feedBytes st cs1) cs2 :=
  List.foldl_append feedByte st cs1 cs2

theorem feedByte_inv (st : AsmState) (c : Char)
    (h1 : st.buffer.length ≤ 512)
    (h2 : ∀ l ∈ st.emitted, 0 < l.length ∧ trim l = l) :
    (feedByte st c).buffer.length ≤ 512 ∧
      ∀ l ∈ (feedByte st c).emitted, 0 < l.length ∧ trim l = l := by
  unfold feedByte
  by_cases hr : c = '\r'
  · simp only [hr, if_pos rfl]
    exact ⟨h1, h2⟩
  by_cases hn : c = '\n'
  · simp only [hr, hn, if_neg, if_pos rfl, if_true]
    refine ⟨by simp, ?_⟩
    by_cases he : 0 < (trim st.buffer).length
    · simp only [he, if_true]
      intro l hl
      rcases List.mem_append.mp hl with hold | hnew
      · exact h2 l hold
      · have : l = trim st.buffer := by simpa using hnew
        subst this
        exact ⟨he, trim_idem st.buffer⟩
    · simp only [he, if_false]
      exact h2
  by_cases hlt : st.buffer.length < 512
  · simp only [hr, hn, hlt, if_neg, if_pos, if_true, if_false]
    refine ⟨?_, h2⟩
    simp only [List.length_append, List.length_cons, List.length_nil]
    omega
  · simp only [hr, hn, hlt, if_neg, if_false]
    exact ⟨by simp, h2⟩

theorem feedBytes_inv (cs : Str) (st : AsmState)
    (h1 : st.buffer.length ≤ 512)
    (h2 : ∀ l ∈ st.emitted, 0 < l.length ∧ trim l = l) :
    (feedBytes st cs).buffer.length ≤ 512 ∧
      ∀ l ∈ (feedBytes st cs).emitted, 0 < l.length ∧ trim l = l := by
  induction cs generalizing st with
  | nil => exact ⟨h1, h2⟩
  | cons c cs ih =>
    have hstep := feedByte_inv st c h1 h2
    exact ih (feedByte st c) hstep.1 hstep.2

theorem feedBytes_plain_accum (cs : Str) : ∀ st : AsmState,
    (∀ c ∈ cs, PlainChar c) → st.buffer.length + cs.length ≤ 512 →
    feedBytes st cs = ⟨st.buffer ++ cs, st.emitted⟩ := by
  induction cs with
  | nil => intro st _ _; simp [feedBytes]
  | cons c cs ih =>
    intro st hplain hlen
    have hc : PlainChar c := hplain c (List.mem_cons_self c cs)
    have hstep : feedByte st c = { st with buffer := st.buffer ++ [c] } := by
      unfold feedByte
      have hlt : st.buffer.length < 512 := by
        simp only [List.length_cons] at hlen; omega
      simp [hc.2, hc.1, hlt]
    show feedBytes (feedByte st c) cs = _
    rw [hstep]
    rw [ih { st with buffer := st.buffer ++ [c] }
        (fun x hx => hplain x (List.mem_cons_of_mem c hx))
        (by simp only [List.length_append, List.length_cons, List.length_nil] at hlen ⊢; omega)]
    simp

theorem feedBytes_cycle (cs : Str) (e : List Str)
    (hplain : ∀ c ∈ cs, PlainChar c) (hlen : cs.length = 513) :
    feedBytes ⟨[], e⟩ cs = ⟨[], e⟩ := by
  have hsplit : cs.take 512 ++ cs.drop 512 = cs := List.take_append_drop 512 cs
  have htklen : (cs.take 512).length = 512 := by
    rw [List.length_take, hlen]
    omega
  have hfront : feedBytes ⟨[], e⟩ (cs.take 512) = ⟨cs.take 512, e⟩ := by
    have := feedBytes_plain_accum (cs.take 512) ⟨[], e⟩
      (fun x hx => hplain x (List.take_subset 512 cs hx))
      (by simp [htklen])
    simpa using this
  have hdlen : (cs.drop 512).length = 1 := by
    rw [List.length_drop, hlen]
  rcases hd : cs.drop 512 with _ | ⟨d, rest⟩
  · rw [hd] at hdlen; simp at hdlen
  · have hrest : rest = [] := by
      rw [hd] at hdlen
      simpa using hdlen
    subst hrest
    have hdmem : d ∈ cs := List.drop_subset 512 cs (by rw [hd]; exact List.mem_cons_self d [])
    have hdc : PlainChar d := hplain d hdmem
    calc feedBytes ⟨[], e⟩ cs
        = feedBytes ⟨[], e⟩ (cs.take 512 ++ cs.drop 512) := by rw [hsplit]
      _ = feedBytes (feedBytes ⟨[], e⟩ (cs.take 512)) (cs.drop 512) := feedBytes_append _ _ _
      _ = feedBytes ⟨cs.take 512, e⟩ [d] := by rw [hfront, hd]
      _ = feedByte ⟨cs.take 512, e⟩ d := rfl
      _ = ⟨[], e⟩ := by
          unfold feedByte
          have : ¬ ((⟨cs.take 512, e⟩ : AsmState).buffer.length < 512) := by
            simp [htklen]
          simp [hdc.1, hdc.2, this, hlen]

theorem feedBytes_chunks (m : ℕ) : ∀ (cs : Str) (e : List Str) (s : ℕ),
    (∀ c ∈ cs, PlainChar c) → cs.length = 513 * m + s → s ≤ 512 →
    feedBytes ⟨[], e⟩ cs = ⟨cs.drop (513 * m), e⟩ := by
  induction m with
  | zero =>
    intro cs e s hplain hlen hs
    have := feedBytes_plain_accum cs ⟨[], e⟩ hplain (by simp; omega)
    simpa using this
  | succ m ih =>
    intro cs e s hplain hlen hs
    have hsplit : cs.take 513 ++ cs.drop 513 = cs := List.take_append_drop 513 cs
    have htklen : (cs.take 513).length = 513 := by
      rw [List.length_take, hlen]
      have : 513 ≤ 513 * (m + 1) + s := by nlinarith
      omega
    have hfront : feedBytes ⟨[], e⟩ (cs.take 513) = ⟨[], e⟩ :=
      feedBytes_cycle (cs.take 513) e
        (fun x hx => hplain x (List.take_subset 513 cs hx)) htklen
    have hdlen : (cs.drop 513).length = 513 * m + s := by
      rw [List.length_drop, hlen]
      ring_nf
      omega
    have hrec := ih (cs.drop 513) e s
      (fun x hx => hplain x (List.drop_subset 513 cs hx)) hdlen hs
    calc feedBytes ⟨[], e⟩ cs
        = feedBytes ⟨[], e⟩ (cs.take 513 ++ cs.drop 513) := by rw [hsplit]
      _ = feedBytes (feedBytes ⟨[], e⟩ (cs.take 513)) (cs.drop 513) := feedBytes_append _ _ _
      _ = feedBytes ⟨[], e⟩ (cs.drop 513) := by rw [hfront]
      _ = ⟨(cs.drop 513).drop (513 * m), e⟩ := hrec
      _ = ⟨cs.drop (513 * (m + 1)), e⟩ := by
          rw [List.drop_drop]
          congr 2
          ring

/-! ## Evaluation of the numeric conversions on the values used in examples -/

theorem toFloat_10 : toFloat (str "10") = 10 := by
  show ((1 : ℤ) : ℚ) * (((10 : ℕ) : ℚ) + ((0 : ℕ) : ℚ) / 10 ^ (0 : ℕ)) = 10
  norm_num

theorem toFloat_20 : toFloat (str "20") = 20 := by
  show ((1 : ℤ) : ℚ) * (((20 : ℕ) : ℚ) + ((0 : ℕ) : ℚ) / 10 ^ (0 : ℕ)) = 20
  norm_num

theorem toFloat_12_3 : toFloat (str "12.3") = 123 / 10 := by
  show ((1 : ℤ) : ℚ) * (((12 : ℕ) : ℚ) + ((3 : ℕ) : ℚ) / 10 ^ (1 : ℕ)) = 123 / 10
  norm_num

theorem toFloat_25_9 : toFloat (str "25.9") = 259 / 10 := by
  show ((1 : ℤ) : ℚ) * (((25 : ℕ) : ℚ) + ((9 : ℕ) : ℚ) / 10 ^ (1 : ℕ)) = 259 / 10
  norm_num

theorem toFloat_12_5xyz : toFloat (str "12.5xyz") = 25 / 2 := by
  show ((1 : ℤ) : ℚ) * (((12 : ℕ) : ℚ) + ((5 : ℕ) : ℚ) / 10 ^ (1 : ℕ)) = 25 / 2
  norm_num

theorem toInt_1024 : toInt (str "1024") = 1024 := rfl

/-- A token rejected by `splitKeyValue` (no `=`, `=` first, or empty trimmed
key) leaves the record untouched. -/
theorem applyToken_malformed (bad : Str) (hbad : malformedToken bad = true) (r2 : Stats) :
    applyToken r2 bad = r2 := by
  have hsk : splitKeyValue (trim bad) = none := by
    simp only [malformedToken] at hbad
    unfold splitKeyValue
    cases hf : (trim bad).findIdx? (fun c => c = '=') with
    | none => rfl
    | some idx =>
      rw [hf] at hbad
      cases idx with
      | zero => rfl
      | succ n =>
        simp only [decide_eq_true_eq] at hbad
        show (if n + 1 = 0 then none
          else
            let key := trim ((trim bad).take (n + 1))
            let value := trim ((trim bad).drop (n + 1 + 1))
            if 0 < key.length then some (key, value) else none) = none
        rw [if_neg (Nat.succ_ne_zero n)]
        simp only [hbad]
        simp
  unfold applyToken
  by_cases hl : 0 < (trim bad).length
  · simp only [hl, if_true, hsk]
  · simp only [hl, if_false]

/-- Feeding any over-long plain run and then a newline: every full cycle of
513 bytes (512 accumulated, the 513th resetting) is absorbed, the remaining
suffix is what the newline terminates. -/
theorem feedBytes_overlong (cs : Str) (m s : ℕ)
    (hplain : ∀ c ∈ cs, PlainChar c)
    (hlen : cs.length = 513 * m + s) (hs : s ≤ 512) :
    feedBytes asmInit (cs ++ ['\n']) =
      ⟨[], if 0 < (trim (cs.drop (513 * m))).length
           then [trim (cs.drop (513 * m))] else []⟩ := by
  have h1 : feedBytes asmInit cs = ⟨cs.drop (513 * m), []⟩ :=
    feedBytes_chunks m cs [] s hplain hlen hs
  rw [feedBytes_append, h1]
  show feedByte ⟨cs.drop (513 * m), []⟩ '\n' = _
  unfold feedByte
  rw [if_neg (by decide), if_pos rfl]
  simp

/-- Evaluation of the 600-byte overflow scenario on a concrete run of `a`s:
the 87-byte suffix surviving the overflow reset is emitted. -/
theorem feed600_eval :
    feedBytes asmInit (List.replicate 600 'a' ++ ['\n'])
      = ⟨[], [List.replicate 87 'a']⟩ := by
  have hplain : ∀ c ∈ List.replicate 600 'a', PlainChar c := by
    intro c hc
    rw [List.eq_of_mem_replicate hc]
    decide
  have h1 : feedBytes asmInit (List.replicate 600 'a')
      = ⟨List.drop (513 * 1) (List.replicate 600 'a'), []⟩ :=
    feedBytes_chunks 1 (List.replicate 600 'a') [] 87 hplain (by simp) (by norm_num)
  rw [List.drop_replicate] at h1
  norm_num at h1
  have htrim : trim (List.replicate 87 'a') = List.replicate 87 'a' := by decide
  rw [feedBytes_append, h1]
  show feedByte ⟨List.replicate 87 'a', []⟩ '\n' = _
  unfold feedByte
  rw [if_neg (by decide), if_pos rfl]
  rw [htrim]
  simp

/-! ## The claims -/

/-- C1 (counterexample): the claim "feeding 600 arbitrary non-newline bytes
followed by a newline emits no line" is false: 600 `a` bytes followed by a
newline do emit a line (the 87-byte suffix surviving the overflow reset). -/
theorem processSerialInput_overflow600_counterexample :
    (feedBytes asmInit (List.replicate 600 'a' ++ ['\n'])).emitted ≠ [] := by
  rw [feed600_eval]
  simp

/-- C1 (amended): feeding 600 non-newline, non-carriage-return bytes and then
a newline does not lose the whole over-long line: the first 513 bytes are
lost (the buffer resets on the 513th byte), the remaining 87 bytes keep
accumulating, and the newline emits their trimmed form when non-empty; the
buffer is empty afterward. -/
theorem processSerialInput_overflow600 (cs : Str)
    (hplain : ∀ c ∈ cs, PlainChar c) (hlen : cs.length = 600) :
    feedBytes asmInit (cs ++ ['\n']) =
      ⟨[], if 0 < (trim (cs.drop 513)).length then [trim (cs.drop 513)] else []⟩ := by
  have h := feedBytes_overlong cs 1 87 hplain (by omega) (by norm_num)
  norm_num at h
  exact h

/-- C1 (witness). -/
theorem processSerialInput_overflow600_witness :
    feedBytes asmInit (List.replicate 600 'a' ++ ['\n']) =
      ⟨[], if 0 < (trim ((List.replicate 600 'a').drop 513)).length
           then [trim ((List.replicate 600 'a').drop 513)] else []⟩ :=
  processSerialInput_overflow600 (List.replicate 600 'a') (by decide) (by decide)

/-- C2: parsing a line updates exactly the fields whose recognized keys
appear in valid tokens of the line; every field whose key is not mentioned
keeps its previous value, and values accumulate across separate lines
(parsing "cpu=12.3;ram_used_mb=1024" then "ram_percent=25.9" from the
default record yields cpu=12.3, ram_used_mb=1024, ram_percent=25.9). -/
theorem parseStatsLine_frame (r : Stats) (line : Str) :
    (¬ MentionsKey line (str "time") → (parseStatsLine r line).time = r.time) ∧
    (¬ MentionsKey line (str "hostname") → (parseStatsLine r line).hostname = r.hostname) ∧
    (¬ MentionsKey line (str "cpu") → (parseStatsLine r line).cpu = r.cpu) ∧
    (¬ MentionsKey line (str "ram_used_mb") → (parseStatsLine r line).ramUsedMb = r.ramUsedMb) ∧
    (¬ MentionsKey line (str "ram_total_mb") → (parseStatsLine r line).ramTotalMb = r.ramTotalMb) ∧
    (¬ MentionsKey line (str "ram_percent") → (parseStatsLine r line).ramPercent = r.ramPercent) ∧
    (¬ MentionsKey line (str "load_1") → (parseStatsLine r line).load1 = r.load1) ∧
    (¬ MentionsKey line (str "load_5") → (parseStatsLine r line).load5 = r.load5) ∧
    (¬ MentionsKey line (str "load_15") → (parseStatsLine r line).load15 = r.load15) ∧
    (¬ MentionsKey line (str "local_ip") → (parseStatsLine r line).localIp = r.localIp) ∧
    (¬ MentionsKey line (str "public_ip") → (parseStatsLine r line).publicIp = r.publicIp) ∧
    (¬ MentionsKey line (str "cpu_temp_c") → (parseStatsLine r line).cpuTempC = r.cpuTempC) ∧
    (¬ MentionsKey line (str "net_up_mbps") → (parseStatsLine r line).netUpMbps = r.netUpMbps) ∧
    (¬ MentionsKey line (str "net_down_mbps") → (parseStatsLine r line).netDownMbps = r.netDownMbps) ∧
    parseStatsLine (parseStatsLine defaultStats (str "cpu=12.3;ram_used_mb=1024")) (str "ram_percent=25.9") = { defaultStats with cpu := 123 / 10, ramUsedMb := 1024, ramPercent := 259 / 10 } := by
  refine ⟨?_, ?_, ?_, ?_, ?_, ?_, ?_, ?_, ?_, ?_, ?_, ?_, ?_, ?_, ?_⟩
  · exact fun h => parseStatsLine_preserve (fun st => st.time) (str "time") applyKeyValue_frame_time r line h
  · exact fun h => parseStatsLine_preserve (fun st => st.hostname) (str "hostname") applyKeyValue_frame_hostname r line h
  · exact fun h => parseStatsLine_preserve (fun st => st.cpu) (str "cpu") applyKeyValue_frame_cpu r line h
  · exact fun h => parseStatsLine_preserve (fun st => st.ramUsedMb) (str "ram_used_mb") applyKeyValue_frame_ramUsedMb r line h
  · exact fun h => parseStatsLine_preserve (fun st => st.ramTotalMb) (str "ram_total_mb") applyKeyValue_frame_ramTotalMb r line h
  · exact fun h => parseStatsLine_preserve (fun st => st.ramPercent) (str "ram_percent") applyKeyValue_frame_ramPercent r line h
  · exact fun h => parseStatsLine_preserve (fun st => st.load1) (str "load_1") applyKeyValue_frame_load1 r line h
  · exact fun h => parseStatsLine_preserve (fun st => st.load5) (str "load_5") applyKeyValue_frame_load5 r line h
  · exact fun h => parseStatsLine_preserve (fun st => st.load15) (str "load_15") applyKeyValue_frame_load15 r line h
  · exact fun h => parseStatsLine_preserve (fun st => st.localIp) (str "local_ip") applyKeyValue_frame_localIp r line h
  · exact fun h => parseStatsLine_preserve (fun st => st.publicIp) (str "public_ip") applyKeyValue_frame_publicIp r line h
  · exact fun h => parseStatsLine_preserve (fun st => st.cpuTempC) (str "cpu_temp_c") applyKeyValue_frame_cpuTempC r line h
  · exact fun h => parseStatsLine_preserve (fun st => st.netUpMbps) (str "net_up_mbps") applyKeyValue_frame_netUpMbps r line h
  · exact fun h => parseStatsLine_preserve (fun st => st.netDownMbps) (str "net_down_mbps") applyKeyValue_frame_netDownMbps r line h
  · have e : parseStatsLine (parseStatsLine defaultStats (str "cpu=12.3;ram_used_mb=1024")) (str "ram_percent=25.9") = { defaultStats with cpu := toFloat (str "12.3"), ramUsedMb := toInt (str "1024"), ramPercent := toFloat (str "25.9") } := rfl
    rw [e, toFloat_12_3, toInt_1024, toFloat_25_9]

/-- C2 (witness): on the empty line no key is mentioned and every field of a
fully-populated record is preserved. -/
theorem parseStatsLine_frame_witness :
    (parseStatsLine sampleStats []).time = sampleStats.time ∧
    (parseStatsLine sampleStats []).hostname = sampleStats.hostname ∧
    (parseStatsLine sampleStats []).cpu = sampleStats.cpu ∧
    (parseStatsLine sampleStats []).ramUsedMb = sampleStats.ramUsedMb ∧
    (parseStatsLine sampleStats []).ramTotalMb = sampleStats.ramTotalMb ∧
    (parseStatsLine sampleStats []).ramPercent = sampleStats.ramPercent ∧
    (parseStatsLine sampleStats []).load1 = sampleStats.load1 ∧
    (parseStatsLine sampleStats []).load5 = sampleStats.load5 ∧
    (parseStatsLine sampleStats []).load15 = sampleStats.load15 ∧
    (parseStatsLine sampleStats []).localIp = sampleStats.localIp ∧
    (parseStatsLine sampleStats []).publicIp = sampleStats.publicIp ∧
    (parseStatsLine sampleStats []).cpuTempC = sampleStats.cpuTempC ∧
    (parseStatsLine sampleStats []).netUpMbps = sampleStats.netUpMbps ∧
    (parseStatsLine sampleStats []).netDownMbps = sampleStats.netDownMbps := by
  have h := parseStatsLine_frame sampleStats []
  exact ⟨h.1 (by decide), h.2.1 (by decide), h.2.2.1 (by decide), h.2.2.2.1 (by decide), h.2.2.2.2.1 (by decide), h.2.2.2.2.2.1 (by decide), h.2.2.2.2.2.2.1 (by decide), h.2.2.2.2.2.2.2.1 (by decide), h.2.2.2.2.2.2.2.2.1 (by decide), h.2.2.2.2.2.2.2.2.2.1 (by decide), h.2.2.2.2.2.2.2.2.2.2.1 (by decide), h.2.2.2.2.2.2.2.2.2.2.2.1 (by decide), h.2.2.2.2.2.2.2.2.2.2.2.2.1 (by decide), h.2.2.2.2.2.2.2.2.2.2.2.2.2.1 (by decide)⟩

/-- C3: a token with no `=`, with `=` at position 0, or whose key trims to
empty is silently skipped and has no effect on the other tokens of the line;
parsing "cpu=10;=5;ram_percent=20" into a fresh default record yields cpu=10
and ram_percent=20. -/
theorem parseStatsLine_skips_malformed :
    (∀ (r : Stats) (pre post : List Str) (bad : Str), malformedToken bad = true →
      parseTokens r (pre ++ bad :: post) = parseTokens r (pre ++ post)) ∧
    parseStatsLine defaultStats (str "cpu=10;=5;ram_percent=20") = { defaultStats with cpu := 10, ramPercent := 20 } := by
  constructor
  · intro r pre post bad hbad
    calc parseTokens r (pre ++ bad :: post)
        = List.foldl applyToken (List.foldl applyToken r pre) (bad :: post) :=
          List.foldl_append applyToken r pre (bad :: post)
      _ = List.foldl applyToken (applyToken (List.foldl applyToken r pre) bad) post := rfl
      _ = List.foldl applyToken (List.foldl applyToken r pre) post := by
          rw [applyToken_malformed bad hbad]
      _ = parseTokens r (pre ++ post) := (List.foldl_append applyToken r pre post).symm
  · have e : parseStatsLine defaultStats (str "cpu=10;=5;ram_percent=20") = { defaultStats with cpu := toFloat (str "10"), ramPercent := toFloat (str "20") } := rfl
    rw [e, toFloat_10, toFloat_20]

/-- C3 (witness): deleting the malformed token `"=5"` from between the two
valid tokens does not change the parse. -/
theorem parseStatsLine_skips_malformed_witness :
    parseTokens defaultStats ([str "cpu=10"] ++ (str "=5") :: [str "ram_percent=20"])
      = parseTokens defaultStats ([str "cpu=10"] ++ [str "ram_percent=20"]) :=
  parseStatsLine_skips_malformed.1 defaultStats [str "cpu=10"] [str "ram_percent=20"]
    (str "=5") (by decide)

/-- C4: for every recognized numeric key (float keys cpu, ram_percent,
load_1, load_5, load_15, cpu_temp_c, net_up_mbps, net_down_mbps and integer
keys ram_used_mb, ram_total_mb), a token whose value has no leading numeric
prefix assigns the default zero to that field — never the previous, stale
value — and a value with a leading numeric prefix is converted to that
prefix's number ("12.5xyz" gives 12.5 for float fields and 12 for integer
fields); generally, a value in which the converter finds no digit converts
to zero. -/
theorem numericValue_defaults_not_stale :
    (∀ r : Stats, parseStatsLine r (str "cpu=abc") = { r with cpu := 0 }) ∧
    (∀ r : Stats, parseStatsLine r (str "cpu=12.5xyz") = { r with cpu := 25 / 2 }) ∧
    (∀ r : Stats, parseStatsLine r (str "ram_used_mb=abc") = { r with ramUsedMb := 0 }) ∧
    (∀ r : Stats, parseStatsLine r (str "ram_used_mb=12.5xyz") = { r with ramUsedMb := 12 }) ∧
    (∀ r : Stats, parseStatsLine r (str "ram_total_mb=abc") = { r with ramTotalMb := 0 }) ∧
    (∀ r : Stats, parseStatsLine r (str "ram_total_mb=12.5xyz") = { r with ramTotalMb := 12 }) ∧
    (∀ r : Stats, parseStatsLine r (str "ram_percent=abc") = { r with ramPercent := 0 }) ∧
    (∀ r : Stats, parseStatsLine r (str "ram_percent=12.5xyz") = { r with ramPercent := 25 / 2 }) ∧
    (∀ r : Stats, parseStatsLine r (str "load_1=abc") = { r with load1 := 0 }) ∧
    (∀ r : Stats, parseStatsLine r (str "load_1=12.5xyz") = { r with load1 := 25 / 2 }) ∧
    (∀ r : Stats, parseStatsLine r (str "load_5=abc") = { r with load5 := 0 }) ∧
    (∀ r : Stats, parseStatsLine r (str "load_5=12.5xyz") = { r with load5 := 25 / 2 }) ∧
    (∀ r : Stats, parseStatsLine r (str "load_15=abc") = { r with load15 := 0 }) ∧
    (∀ r : Stats, parseStatsLine r (str "load_15=12.5xyz") = { r with load15 := 25 / 2 }) ∧
    (∀ r : Stats, parseStatsLine r (str "cpu_temp_c=abc") = { r with cpuTempC := 0 }) ∧
    (∀ r : Stats, parseStatsLine r (str "cpu_temp_c=12.5xyz") = { r with cpuTempC := 25 / 2 }) ∧
    (∀ r : Stats, parseStatsLine r (str "net_up_mbps=abc") = { r with netUpMbps := 0 }) ∧
    (∀ r : Stats, parseStatsLine r (str "net_up_mbps=12.5xyz") = { r with netUpMbps := 25 / 2 }) ∧
    (∀ r : Stats, parseStatsLine r (str "net_down_mbps=abc") = { r with netDownMbps := 0 }) ∧
    (∀ r : Stats, parseStatsLine r (str "net_down_mbps=12.5xyz") = { r with netDownMbps := 25 / 2 }) ∧
    (∀ v : Str, hasLeadingDigits v = false → toFloat v = 0) ∧
    (∀ v : Str, hasLeadingIntDigits v = false → toInt v = 0) := by
  refine ⟨?_, ?_, ?_, ?_, ?_, ?_, ?_, ?_, ?_, ?_, ?_, ?_, ?_, ?_, ?_, ?_, ?_, ?_, ?_, ?_, ?_, ?_⟩
  · exact fun r => rfl
  · intro r
    have e : parseStatsLine r (str "cpu=12.5xyz") = { r with cpu := toFloat (str "12.5xyz") } := rfl
    rw [e, toFloat_12_5xyz]
  · exact fun r => rfl
  · exact fun r => rfl
  · exact fun r => rfl
  · exact fun r => rfl
  · exact fun r => rfl
  · intro r
    have e : parseStatsLine r (str "ram_percent=12.5xyz") = { r with ramPercent := toFloat (str "12.5xyz") } := rfl
    rw [e, toFloat_12_5xyz]
  · exact fun r => rfl
  · intro r
    have e : parseStatsLine r (str "load_1=12.5xyz") = { r with load1 := toFloat (str "12.5xyz") } := rfl
    rw [e, toFloat_12_5xyz]
  · exact fun r => rfl
  · intro r
    have e : parseStatsLine r (str "load_5=12.5xyz") = { r with load5 := toFloat (str "12.5xyz") } := rfl
    rw [e, toFloat_12_5xyz]
  · exact fun r => rfl
  · intro r
    have e : parseStatsLine r (str "load_15=12.5xyz") = { r with load15 := toFloat (str "12.5xyz") } := rfl
    rw [e, toFloat_12_5xyz]
  · exact fun r => rfl
  · intro r
    have e : parseStatsLine r (str "cpu_temp_c=12.5xyz") = { r with cpuTempC := toFloat (str "12.5xyz") } := rfl
    rw [e, toFloat_12_5xyz]
  · exact fun r => rfl
  · intro r
    have e : parseStatsLine r (str "net_up_mbps=12.5xyz") = { r with netUpMbps := toFloat (str "12.5xyz") } := rfl
    rw [e, toFloat_12_5xyz]
  · exact fun r => rfl
  · intro r
    have e : parseStatsLine r (str "net_down_mbps=12.5xyz") = { r with netDownMbps := toFloat (str "12.5xyz") } := rfl
    rw [e, toFloat_12_5xyz]
  · intro v h
    unfold hasLeadingDigits at h
    rw [decide_eq_false_iff_not] at h
    push_neg at h
    unfold toFloat
    rw [if_pos]
    exact ⟨h.1, h.2⟩
  · intro v h
    unfold hasLeadingIntDigits at h
    rw [decide_eq_false_iff_not] at h
    push_neg at h
    show (stripSign (v.dropWhile isSpaceChar)).1 *
      (digitsToNat (((stripSign (v.dropWhile isSpaceChar)).2).takeWhile Char.isDigit) : ℤ) = 0
    rw [h]
    simp [digitsToNat]

/-- C4 (witness): both converters and both conversion paths exercised at
concrete inputs. -/
theorem numericValue_defaults_not_stale_witness :
    parseStatsLine defaultStats (str "cpu=abc") = { defaultStats with cpu := 0 } ∧
    parseStatsLine defaultStats (str "ram_used_mb=abc") = { defaultStats with ramUsedMb := 0 } ∧
    toFloat (str "abc") = 0 ∧
    toInt (str "xyz") = 0 := by
  have h := numericValue_defaults_not_stale
  exact ⟨h.1 defaultStats, h.2.2.1 defaultStats,
    h.2.2.2.2.2.2.2.2.2.2.2.2.2.2.2.2.2.2.2.2.1 (str "abc") (by decide), h.2.2.2.2.2.2.2.2.2.2.2.2.2.2.2.2.2.2.2.2.2 (str "xyz") (by decide)⟩
/-- C5: merging a line into the stats record is idempotent: parsing the same
line twice in succession yields exactly the record of parsing it once. -/
theorem parseStatsLine_idem (r : Stats) (line : Str) :
    parseStatsLine (parseStatsLine r line) line = parseStatsLine r line := by
  unfold parseStatsLine
  rw [parseTokens_eq_applyUpd (lineTokens line) r,
      parseTokens_eq_applyUpd (lineTokens line) (applyUpd r (collectTokens (lineTokens line))),
      applyUpd_idem]

/-- C6: over every input byte sequence the line buffer never exceeds 512
bytes, and every emitted line is non-empty and equals its own trim (no
leading or trailing whitespace). -/
theorem lineAssembler_bounded (cs : Str) :
    (feedBytes asmInit cs).buffer.length ≤ 512 ∧
      ∀ l ∈ (feedBytes asmInit cs).emitted, 0 < l.length ∧ trim l = l :=
  feedBytes_inv cs asmInit (by simp [asmInit]) (by simp [asmInit])

/-- C6 (witness): the line emitted for input "ab\x0a" is non-empty and
trimmed. -/
theorem lineAssembler_bounded_witness :
    0 < (str "ab").length ∧ trim (str "ab") = str "ab" :=
  (lineAssembler_bounded (str "ab" ++ ['\n'])).2 (str "ab") (by decide)

/-- C7: `drawBar` clamps its percent argument to [0,100]: percent=150 issues
exactly the drawing operations of percent=100, and percent=-5 exactly those
of percent=0. -/
theorem drawBar_clamps (x y w h : ℤ) (c : ℕ) :
    drawBar x y w h 150 c = drawBar x y w h 100 c ∧
    drawBar x y w h (-5) c = drawBar x y w h 0 c := by
  constructor <;> (unfold drawBar; norm_num)

/-- C8: a matrix-rain column advances its head by exactly one row per step
(trail length unchanged) until the head passes `rows + trailLen`; at respawn
(and at initial seeding) the new head is ≤ 0 and the new trail length lies
in [MATRIX_TRAIL_MIN_ROWS, MATRIX_TRAIL_MAX_ROWS]. -/
theorem matrixCol_spec (c : MatrixCol) (s1 s2 : ℕ) :
    (c.dropY + 1 < matrixRows + c.trailLen →
      matrixColStep c s1 s2 = ⟨c.dropY + 1, c.trailLen⟩) ∧
    (matrixRows + c.trailLen ≤ c.dropY + 1 →
      (matrixColStep c s1 s2).dropY ≤ 0 ∧
      MATRIX_TRAIL_MIN_ROWS ≤ (matrixColStep c s1 s2).trailLen ∧
      (matrixColStep c s1 s2).trailLen ≤ MATRIX_TRAIL_MAX_ROWS) ∧
    ((initCol s1 s2).dropY ≤ 0 ∧
      MATRIX_TRAIL_MIN_ROWS ≤ (initCol s1 s2).trailLen ∧
      (initCol s1 s2).trailLen ≤ MATRIX_TRAIL_MAX_ROWS) := by
  have e1 : 0 ≤ (s1 : ℤ) % 30 := Int.emod_nonneg _ (by norm_num)
  have e2 : 0 ≤ (s2 : ℤ) % 9 := Int.emod_nonneg _ (by norm_num)
  have e3 : (s2 : ℤ) % 9 < 9 := Int.emod_lt_of_pos _ (by norm_num)
  refine ⟨?_, ?_, ?_⟩
  · intro hlt
    unfold matrixColStep
    rw [if_neg (not_le.mpr hlt)]
  · intro hge
    unfold matrixColStep
    rw [if_pos hge]
    refine ⟨?_, ?_, ?_⟩ <;>
      (simp only [randBelow, randIn, matrixRows, MATRIX_SCREEN_H, MATRIX_TEXT_HEIGHT,
        MATRIX_TRAIL_MIN_ROWS, MATRIX_TRAIL_MAX_ROWS]; norm_num; omega)
  · refine ⟨?_, ?_, ?_⟩ <;>
      (simp only [initCol, randBelow, randIn, matrixRows, MATRIX_SCREEN_H, MATRIX_TEXT_HEIGHT,
        MATRIX_TRAIL_MIN_ROWS, MATRIX_TRAIL_MAX_ROWS]; norm_num; omega)

/-- C8 (witness). -/
theorem matrixCol_spec_witness :
    matrixColStep ⟨5, 6⟩ 0 0 = ⟨6, 6⟩ ∧
    ((matrixColStep ⟨35, 5⟩ 17 40).dropY ≤ 0 ∧
      MATRIX_TRAIL_MIN_ROWS ≤ (matrixColStep ⟨35, 5⟩ 17 40).trailLen ∧
      (matrixColStep ⟨35, 5⟩ 17 40).trailLen ≤ MATRIX_TRAIL_MAX_ROWS) ∧
    ((initCol 3 7).dropY ≤ 0 ∧
      MATRIX_TRAIL_MIN_ROWS ≤ (initCol 3 7).trailLen ∧
      (initCol 3 7).trailLen ≤ MATRIX_TRAIL_MAX_ROWS) :=
  ⟨(matrixCol_spec ⟨5, 6⟩ 0 0).1 (by decide),
   (matrixCol_spec ⟨35, 5⟩ 17 40).2.1 (by decide),
   (matrixCol_spec ⟨3, 3⟩ 3 7).2.2⟩

/-- C9: a BtnB edge outside AsciiArt enters AsciiArt with the cursor reset to
index 0; a BtnB edge inside AsciiArt advances the cursor by one modulo the
catalog size, keeping it in range, and exactly (catalog size = 2) presses
bring the cursor back to the first entry. -/
theorem pressB_spec (s : UiState) :
    (s.mode ≠ DisplayMode.art → pressB s = ⟨DisplayMode.art, 0⟩) ∧
    (s.mode = DisplayMode.art →
      (pressB s).mode = DisplayMode.art ∧
      (pressB s).artIndex = Int.tmod (s.artIndex + 1) numAsciiArts) ∧
    (0 ≤ s.artIndex → 0 ≤ (pressB s).artIndex ∧ (pressB s).artIndex < numAsciiArts) ∧
    (pressB ⟨DisplayMode.art, 0⟩ = ⟨DisplayMode.art, 1⟩ ∧
      pressB (pressB ⟨DisplayMode.art, 0⟩) = ⟨DisplayMode.art, 0⟩ ∧
      numAsciiArts = 2) := by
  refine ⟨?_, ?_, ?_, by decide, by decide, by decide⟩
  · intro hm
    unfold pressB
    rw [if_pos hm]
  · intro hm
    unfold pressB
    rw [if_neg (by simp [hm]), if_pos (by norm_num [numAsciiArts])]
    exact ⟨hm ▸ rfl, rfl⟩
  · intro hidx
    unfold pressB
    by_cases hm : s.mode ≠ DisplayMode.art
    · rw [if_pos hm]
      norm_num [numAsciiArts]
    · rw [if_neg hm, if_pos (by norm_num [numAsciiArts])]
      constructor
      · exact Int.tmod_nonneg _ (by omega)
      · exact Int.tmod_lt_of_pos _ (by norm_num [numAsciiArts])

/-- C9 (witness). -/
theorem pressB_spec_witness :
    pressB ⟨DisplayMode.dashboard, 5⟩ = ⟨DisplayMode.art, 0⟩ ∧
    ((pressB ⟨DisplayMode.art, 7⟩).mode = DisplayMode.art ∧
      (pressB ⟨DisplayMode.art, 7⟩).artIndex = Int.tmod (7 + 1) numAsciiArts) ∧
    (0 ≤ (pressB ⟨DisplayMode.art, 7⟩).artIndex ∧
      (pressB ⟨DisplayMode.art, 7⟩).artIndex < numAsciiArts) :=
  ⟨(pressB_spec ⟨DisplayMode.dashboard, 5⟩).1 (by decide),
   (pressB_spec ⟨DisplayMode.art, 7⟩).2.1 (by decide),
   (pressB_spec ⟨DisplayMode.art, 7⟩).2.2.1 (by decide)⟩

/-- C10: when more than 512 plain bytes arrive before a newline, the
assembler does not discard the whole over-long line: each time the buffer
reaches 512 bytes the next byte clears it, the bytes after the last reset
keep accumulating, and the newline emits the trimmed remaining suffix when
non-empty. -/
theorem processSerialInput_overlong_suffix (cs : Str) (m s : ℕ)
    (hplain : ∀ c ∈ cs, PlainChar c)
    (hlen : cs.length = 513 * m + s) (hs : s ≤ 512) :
    feedBytes asmInit (cs ++ ['\n']) =
      ⟨[], if 0 < (trim (cs.drop (513 * m))).length
           then [trim (cs.drop (513 * m))] else []⟩ :=
  feedBytes_overlong cs m s hplain hlen hs

/-- C10 (witness): 600 `b` bytes then newline emit the last 87 bytes as one
line. -/
theorem processSerialInput_overlong_suffix_witness :
    feedBytes asmInit (List.replicate 600 'b' ++ ['\n']) =
      ⟨[], if 0 < (trim ((List.replicate 600 'b').drop (513 * 1))).length
           then [trim ((List.replicate 600 'b').drop (513 * 1))] else []⟩ :=
  processSerialInput_overlong_suffix (List.replicate 600 'b') 1 87
    (by decide) (by decide) (by decide)
